import Mathlib

/-!
Shallow embedding of the client-side data/state model of `src/script.js`
(the gallery snapshot at lines ~4039-6050): image records, the
category/tag/mode filtering pipeline, the selection set, the category
directory and category cascades, and the ZIP import classification.
Every definition is translated from the JavaScript source; the source
function and line range are named in each doc comment.
-/

namespace Gallery

/-- Model of a JavaScript value stored in the `category` field of a record:
`undefined`, `null`, or a string. -/
inductive JVal where
  | undef
  | jnull
  | jstr (s : String)
  deriving DecidableEq

/-- JavaScript truthiness of a `JVal` (`undefined`, `null` and `""` are
falsy), as used by `.filter(cat => cat)` in `renameCategory` (line 5849). -/
def JVal.truthy : JVal → Bool
  | .jstr s => s != ""
  | _ => false

/-- JavaScript `String(v)` coercion, which the default comparator of
`Array.prototype.sort` applies before comparing (relevant to line 4202). -/
def JVal.asString : JVal → String
  | .undef => "undefined"
  | .jnull => "null"
  | .jstr s => s

/-- An image record as persisted in the IndexedDB store (the objects built in
`saveImage` line 4131 and `addCategory` line 5762).  `id` is `none` before the
store assigned a key (JS `undefined`); `tags` is `none` when the field is
absent; `isEmptyCategory` is the sentinel flag (absent on real records
modelled as `false`). -/
structure ImageRecord where
  id : Option Nat
  name : String
  category : JVal
  tags : Option (List String)
  data : String
  date : String
  isEmptyCategory : Bool
  deriving DecidableEq

/-- `pat` begins the char list `s`: model of JS `String.prototype.startsWith`
(used on names at line 4189). -/
def beginsWith : List Char → List Char → Bool
  | [], _ => true
  | _ :: _, [] => false
  | p :: ps, c :: cs => p == c && beginsWith ps cs

/-- Helper for `removeFileExtension`: `some front` when the char list ends in
`.` followed by one or more chars none of which is `.` or `/` (a match of the
regex `\.[^/.]+$` of line 4040), where `front` is the part before that dot;
`none` when the regex does not match. -/
def stripExtCore : List Char → Option (List Char)
  | [] => none
  | c :: cs =>
    match stripExtCore cs with
    | some cs2 => some (c :: cs2)
    | none =>
      if c == '.' && !cs.isEmpty && cs.all (fun d => d != '.' && d != '/')
      then some [] else none

/-- `removeFileExtension` (line 4039): `name.replace(/\.[^/.]+$/, "")`. -/
def removeFileExtension (name : String) : String :=
  ⟨(stripExtCore name.data).getD name.data⟩

/-- ASCII model of JS `toUpperCase`, adequate for the ASCII `DSC` / `TGA`
mode suffixes compared by `hasSuffix`. -/
def upperChars (s : List Char) : List Char := s.map Char.toUpper

/-- `hasSuffix` (line 4044): strip the extension, uppercase both sides and
test `endsWith`. -/
def hasSuffix (name sfx : String) : Bool :=
  beginsWith (upperChars sfx.data).reverse
    (upperChars (removeFileExtension name).data).reverse

/-- The guard `currentModeFilter && currentModeFilter !== 'ALL'` (line 4355):
the mode filter is active for a truthy string other than `"ALL"`. -/
def modeActive (mode : String) : Bool := mode != "" && mode != "ALL"

/-- The tag-filter predicate applied when `currentTagFilters.length > 0`
(lines 4347-4351): a record with absent or empty `tags` fails; otherwise
every filter tag must be contained in the record's tags (AND semantics). -/
def tagMatch (tagFilters : List String) (r : ImageRecord) : Bool :=
  match r.tags with
  | none => false
  | some ts => if ts.isEmpty then false else tagFilters.all (fun t => ts.contains t)

/-- Stage 1 of every visible-set computation: drop sentinel records
(`filtered.filter(img => !img.isEmptyCategory)`, line 4334). -/
def filterSentinels (imgs : List ImageRecord) : List ImageRecord :=
  imgs.filter (fun r => !r.isEmptyCategory)

/-- The per-record category test of `renderGallery` / `selectAllVisible`
(lines 4337-4342): the `"其他"` branch matches `null`, `""` and `"其他"`. -/
def categoryPredicate (filt : String) (r : ImageRecord) : Bool :=
  if filt == "其他" then
    r.category == .jnull || r.category == .jstr "" || r.category == .jstr "其他"
  else r.category == .jstr filt

/-- Stage 2: the category filter, skipped when the filter is `"all"`
(line 4336). -/
def applyCategoryFilter (filt : String) (l : List ImageRecord) : List ImageRecord :=
  if filt != "all" then l.filter (categoryPredicate filt) else l

/-- Stage 3: the tag filter, skipped when no filter tag is set (line 4346). -/
def applyTagFilter (tagFilters : List String) (l : List ImageRecord) : List ImageRecord :=
  if !tagFilters.isEmpty then l.filter (tagMatch tagFilters) else l

/-- Stage 4: the mode filter, skipped when the mode is falsy or `"ALL"`
(line 4355). -/
def applyModeFilter (mode : String) (l : List ImageRecord) : List ImageRecord :=
  if modeActive mode then l.filter (fun r => hasSuffix r.name mode) else l

/-- The visible-set pipeline shared verbatim by `renderGallery`
(lines 4331-4357), `selectAllVisible` (lines 4405-4429) and `updateUI`
(lines 4474-4497): drop sentinels, then the category, tag and mode filters. -/
def visibleRecords (imgs : List ImageRecord) (filt : String)
    (tagFilters : List String) (mode : String) : List ImageRecord :=
  applyModeFilter mode (applyTagFilter tagFilters
    (applyCategoryFilter filt (filterSentinels imgs)))

/-- `checkDuplicateImage` (lines 4089-4091):
`allImages.some(img => img.name === fileName)`. -/
def checkDuplicateImage (allImages : List ImageRecord) (fileName : String) : Bool :=
  allImages.any (fun img => img.name == fileName)

/-- `toggleModeFilter` (lines 4529-4539): `DSC → TGA → ALL → DSC`, any other
value falling into the `else` branch that yields `DSC`. -/
def toggleModeFilter (m : String) : String :=
  if m == "DSC" then "TGA"
  else if m == "TGA" then "ALL"
  else "DSC"

/-- The ids `selectAllVisible` iterates over (lines 4432-4436): ids of
visible records that satisfy `img.id != null`. -/
def visibleIds (imgs : List ImageRecord) (filt : String)
    (tagFilters : List String) (mode : String) : Finset Nat :=
  ((visibleRecords imgs filt tagFilters mode).filterMap (fun r => r.id)).toFinset

/-- `selectAllVisible` (lines 4404-4452): add every visible id to the
selection set, i.e. union the selection with the visible ids. -/
def selectAllVisible (imgs : List ImageRecord) (filt : String)
    (tagFilters : List String) (mode : String) (sel : Finset Nat) : Finset Nat :=
  sel ∪ visibleIds imgs filt tagFilters mode

/-- `clearSelection` (lines 4455-4467): `selectedIds.clear()` — the whole
selection set is emptied, with no filtering by visibility. -/
def clearSelection (_sel : Finset Nat) : Finset Nat := ∅

/-- The per-record category test inside `toggleSelectAll` (lines 4604-4609):
unlike `categoryPredicate`, the `"其他"` branch matches only `null` and
`""`. -/
def toggleCategoryPredicate (filt : String) (r : ImageRecord) : Bool :=
  if filt == "其他" then r.category == .jnull || r.category == .jstr ""
  else r.category == .jstr filt

/-- The category-and-tag stage of `toggleSelectAll` (lines 4603-4616): the
tag filter is nested inside the `currentFilter !== 'all'` branch, so with the
category filter at `"all"` the tag filter is never applied. -/
def toggleCategoryTagStage (filt : String) (tagFilters : List String)
    (l : List ImageRecord) : List ImageRecord :=
  if filt != "all" then
    applyTagFilter tagFilters (l.filter (toggleCategoryPredicate filt))
  else l

/-- The visible-set computation of `toggleSelectAll` (lines 4598-4621). -/
def toggleVisibleRecords (imgs : List ImageRecord) (filt : String)
    (tagFilters : List String) (mode : String) : List ImageRecord :=
  applyModeFilter mode (toggleCategoryTagStage filt tagFilters (filterSentinels imgs))

/-- `toggleSelectAll` (lines 4597-4670): if every visible id is already
selected and at least one record is visible, remove the visible ids from the
selection, otherwise add them. -/
def toggleSelectAll (imgs : List ImageRecord) (filt : String)
    (tagFilters : List String) (mode : String) (sel : Finset Nat) : Finset Nat :=
  let visible := toggleVisibleRecords imgs filt tagFilters mode
  let visibleCount := (visible.filter (fun r => r.id.isSome)).length
  let selectedVisibleCount :=
    (visible.filter (fun r =>
      match r.id with
      | some n => decide (n ∈ sel)
      | none => false)).length
  let ids := (visible.filterMap (fun r => r.id)).toFinset
  if selectedVisibleCount == visibleCount && decide (0 < visibleCount) then
    sel \ ids
  else
    sel ∪ ids

/-- Accumulator form of `setDedup`: `seen` is the set of values already
emitted. -/
def setDedupAux (seen : List JVal) : List JVal → List JVal
  | [] => []
  | a :: as =>
    if seen.contains a then setDedupAux seen as
    else a :: setDedupAux (a :: seen) as

/-- First-occurrence deduplication, modelling `[...new Set(xs)]`
(line 4193). -/
def setDedup (l : List JVal) : List JVal := setDedupAux [] l

/-- Code-unit lexicographic comparison of two char lists: the order produced
by the comparator-less JS `Array.prototype.sort` after `String(...)` coercion
(on strings of BMP characters, UTF-16 code-unit order coincides with the
code-point order used here). -/
def chListLe : List Char → List Char → Bool
  | [], _ => true
  | _ :: _, [] => false
  | a :: as, b :: bs => if a = b then chListLe as bs else decide (a < b)

/-- The order used by `allCategories.sort()` (line 4202): default JS sort,
i.e. `String(...)`-coerced lexicographic comparison. -/
def jvalLe (a b : JVal) : Bool := chListLe a.asString.data b.asString.data

/-- `jvalLe` as a decidable relation, for `List.insertionSort`. -/
def jvalLeR (a b : JVal) : Prop := jvalLe a b = true

instance : DecidableRel jvalLeR := fun a b =>
  inferInstanceAs (Decidable (jvalLe a b = true))

/-- The marker carried by the names of sentinel records
(`'__EMPTY_IMAGE__' + name`, line 5763). -/
def emptyMarker : String := "__EMPTY_IMAGE__"

/-- The category sources of `renderCategories` (lines 4189-4190): the
categories of marker-named sentinel records followed by the categories of
real records (the spread `[...emptyCategoryRecords, ...realCategories]`). -/
def rawCategories (imgs : List ImageRecord) : List JVal :=
  (imgs.filter (fun r => r.isEmptyCategory && beginsWith emptyMarker.data r.name.data)).map
      (fun r => r.category)
    ++ (imgs.filter (fun r => !r.isEmptyCategory)).map (fun r => r.category)

/-- The `allCategories` value of line 4193: deduplicate via `new Set`, then
drop `undefined`, `''`, `'all'` and `'全部'`. -/
def filteredCategories (imgs : List ImageRecord) : List JVal :=
  (setDedup (rawCategories imgs)).filter
    (fun c => c != .undef && c != .jstr "" && c != .jstr "all" && c != .jstr "全部")

/-- Lines 4196-4199: push `"其他"` at the end when it is absent. -/
def categoriesWithOther (imgs : List ImageRecord) : List JVal :=
  if (filteredCategories imgs).contains (.jstr "其他") then filteredCategories imgs
  else filteredCategories imgs ++ [.jstr "其他"]

/-- The category list computed by `renderCategories` (lines 4186-4202):
`allCategories.sort()` runs AFTER the `"其他"` push, with the default JS
comparator (a stable sort by `String(...)`-coerced code-unit order, modelled
by insertion sort under `jvalLeR`). -/
def listCategories (imgs : List ImageRecord) : List JVal :=
  List.insertionSort jvalLeR (categoriesWithOther imgs)

/-- `deleteCategory` (lines 5954-5984): one cursor scan; a record whose
`category` equals the name is deleted when it is a sentinel and otherwise has
its `category` set to `null`; every other record passes unchanged. -/
def deleteCategory (name : String) (imgs : List ImageRecord) : List ImageRecord :=
  imgs.filterMap (fun r =>
    if r.category == .jstr name then
      if r.isEmptyCategory then none
      else some { r with category := .jnull }
    else some r)

/-- The `existingCategories` scan of `renameCategory` (line 5849):
`[...new Set(allImages.map(img => img.category).filter(cat => cat))]`. -/
def existingCategories (imgs : List ImageRecord) : List JVal :=
  setDedup ((imgs.map (fun r => r.category)).filter JVal.truthy)

/-- `renameCategory` (lines 5841-5884): reserved or existing target names are
rejected before the store transaction is opened; otherwise a cursor scan
rewrites `category` on every record whose `category` equals the old name.
Note the second cursor branch
(`else if (value.isEmptyCategory && value.category === oldName)`,
lines 5866-5871, the one that would also rewrite the sentinel `name` to
`'__EMPTY_IMAGE__' + newName`) is unreachable, because its guard implies the
guard of the first branch. -/
def renameCategory (oldName newName : String) (imgs : List ImageRecord) : List ImageRecord :=
  if newName == "全部" || newName == "其他" then imgs
  else if (existingCategories imgs).contains (.jstr newName) then imgs
  else
    imgs.map (fun r =>
      if r.category == .jstr oldName then { r with category := .jstr newName }
      else if r.isEmptyCategory && r.category == .jstr oldName then
        { r with category := .jstr newName, name := emptyMarker ++ newName }
      else r)

/-- JS `str.split(sep)` on char lists for a one-char separator: always at
least one (possibly empty) segment. -/
def splitChar (sep : Char) : List Char → List (List Char)
  | [] => [[]]
  | c :: cs =>
    let r := splitChar sep cs
    if c == sep then [] :: r
    else
      match r with
      | g :: gs => (c :: g) :: gs
      | [] => [[c]]

/-- JS `||` on two strings: the left operand unless it is falsy (`""`). -/
def jsOrStr (a b : String) : String := if a == "" then b else a

/-- The `(category, actualFilename)` split of a ZIP entry path in
`handleZipFile` (lines 5237-5245): when the path contains a separator the
first `/`-segment is the category and the remaining segments are re-joined
as the filename; otherwise the category is `''` and the filename is the
whole path. -/
def zipEntrySplit (path : String) : String × String :=
  let parts := (splitChar '/' path.data).map (fun g => (⟨g⟩ : String))
  if parts.length > 1 then
    (parts.headD "", String.intercalate "/" parts.tail)
  else ("", path)

/-- The lowercased extension `actualFilename.split('.').pop().toLowerCase()`
(line 5248), with ASCII lowercasing. -/
def zipEntryExt (fname : String) : String :=
  ⟨((splitChar '.' fname.data).getLastD []).map Char.toLower⟩

/-- The image-extension allow-list of `handleZipFile` (line 5249). -/
def imageExts : List String := ["jpg", "jpeg", "png", "gif", "bmp", "webp"]

/-- The fresh record built by `saveImage` (lines 4129-4141) when no duplicate
exists: `category: category || ''`, `tags: []`, the data URI as payload; the
id is assigned later by the store. -/
def saveImageRecord (fileName dataUrl now category : String) : ImageRecord :=
  { id := none, name := fileName, category := .jstr (jsOrStr category ""),
    tags := some [], data := dataUrl, date := now, isEmptyCategory := false }

/-- The record created when `handleZipFile` imports one archive entry
(lines 5237-5282): the path is split, the extension is checked against the
allow-list, the duplicate check `allImages.find(img => img.name === ...)`
consults the snapshot, and on the fresh path
`saveImage(blob, category || 'all')` builds the record.  `none` when the
entry creates no record: non-image extension, duplicate without the
overwrite flag (skipped), or duplicate with the flag (routed to
`updateExistingImage`, which modifies the existing record instead). -/
def zipImportEntry (allImages : List ImageRecord) (_overwrite : Bool)
    (path dataUrl now : String) : Option ImageRecord :=
  if imageExts.contains (zipEntryExt (zipEntrySplit path).2) then
    if allImages.any (fun img => img.name == (zipEntrySplit path).2) then none
    else some (saveImageRecord (zipEntrySplit path).2 dataUrl now
      (jsOrStr (zipEntrySplit path).1 "all"))
  else none

/-- Sample real record in category `"Lab"` with tag `"PBT"`. -/
def rLab : ImageRecord :=
  { id := some 1, name := "x_DSC.jpg", category := .jstr "Lab",
    tags := some ["PBT"], data := "", date := "d", isEmptyCategory := false }

/-- Sample real record with `null` category and no tags. -/
def rNull : ImageRecord :=
  { id := some 2, name := "y.png", category := .jnull,
    tags := some [], data := "", date := "d", isEmptyCategory := false }

/-- Sample sentinel record for category `"A"`. -/
def sentinelA : ImageRecord :=
  { id := some 3, name := "__EMPTY_IMAGE__A", category := .jstr "A",
    tags := some [], data := "", date := "d", isEmptyCategory := true }

/-- Sample real record in category `"阿"`, a string that sorts after
`"其他"` in code-unit order. -/
def rAh : ImageRecord :=
  { id := some 4, name := "a.png", category := .jstr "阿",
    tags := some [], data := "", date := "d", isEmptyCategory := false }

/-- Sample real record in category `"A"`. -/
def rCatA : ImageRecord :=
  { id := some 5, name := "b.png", category := .jstr "A",
    tags := some [], data := "", date := "d", isEmptyCategory := false }

theorem mem_of_applyCategoryFilter {filt : String} {l : List ImageRecord}
    {r : ImageRecord} (h : r ∈ applyCategoryFilter filt l) : r ∈ l := by
  unfold applyCategoryFilter at h
  split at h
  · exact List.mem_of_mem_filter h
  · exact h

theorem mem_of_applyTagFilter {tagFilters : List String} {l : List ImageRecord}
    {r : ImageRecord} (h : r ∈ applyTagFilter tagFilters l) : r ∈ l := by
  unfold applyTagFilter at h
  split at h
  · exact List.mem_of_mem_filter h
  · exact h

theorem mem_of_applyModeFilter {mode : String} {l : List ImageRecord}
    {r : ImageRecord} (h : r ∈ applyModeFilter mode l) : r ∈ l := by
  unfold applyModeFilter at h
  split at h
  · exact List.mem_of_mem_filter h
  · exact h

theorem mem_of_filterSentinels {imgs : List ImageRecord} {r : ImageRecord}
    (h : r ∈ filterSentinels imgs) : r ∈ imgs :=
  List.mem_of_mem_filter h

theorem sentinel_false_of_mem_filterSentinels {imgs : List ImageRecord}
    {r : ImageRecord} (h : r ∈ filterSentinels imgs) : r.isEmptyCategory = false := by
  have h2 := (List.mem_filter.mp h).2
  simpa using h2

theorem mem_applyModeFilter_of {mode : String} {l : List ImageRecord}
    {r : ImageRecord} (hr : r ∈ l)
    (hm : modeActive mode = true → hasSuffix r.name mode = true) :
    r ∈ applyModeFilter mode l := by
  rcases h2 : modeActive mode with _ | _
  · simp [applyModeFilter, h2, hr]
  · simp [applyModeFilter, h2, List.mem_filter, hr, hm h2]

/-- Claim C1: for every snapshot and every combination of the category, tag
and mode filter dimensions, the visible set computed by the filtering
pipeline shared by `renderGallery` and `selectAllVisible` contains no
sentinel record, and every id `selectAllVisible` works with comes from a
non-sentinel record of the snapshot. -/
theorem visible_excludes_sentinels (imgs : List ImageRecord) (filt : String)
    (tagFilters : List String) (mode : String) :
    (∀ r ∈ visibleRecords imgs filt tagFilters mode, r.isEmptyCategory = false) ∧
      (∀ n ∈ visibleIds imgs filt tagFilters mode,
        ∃ r ∈ imgs, r.id = some n ∧ r.isEmptyCategory = false) := by
  have key : ∀ r ∈ visibleRecords imgs filt tagFilters mode,
      r ∈ imgs ∧ r.isEmptyCategory = false := by
    intro r hr
    unfold visibleRecords at hr
    have h1 := mem_of_applyCategoryFilter (mem_of_applyTagFilter (mem_of_applyModeFilter hr))
    exact ⟨mem_of_filterSentinels h1, sentinel_false_of_mem_filterSentinels h1⟩
  refine ⟨fun r hr => (key r hr).2, ?_⟩
  intro n hn
  unfold visibleIds at hn
  rw [List.mem_toFinset, List.mem_filterMap] at hn
  obtain ⟨r, hr, hid⟩ := hn
  exact ⟨r, (key r hr).1, hid, (key r hr).2⟩

/-- Witness for claim C1 at a concrete snapshot holding one real record and
one sentinel. -/
theorem visible_excludes_sentinels_witness :
    rLab ∈ visibleRecords [rLab, sentinelA] "all" [] "ALL" ∧
      rLab.isEmptyCategory = false :=
  ⟨by decide, (visible_excludes_sentinels [rLab, sentinelA] "all" [] "ALL").1 rLab (by decide)⟩

/-- Claim C2 counterexample: a sentinel whose name equals the file name makes
`checkDuplicateImage` return `true`, although no record with
`isEmptyCategory` false carries the name — refuting the claim that the check
consults non-sentinel records only. -/
theorem checkDuplicateImage_counterexample :
    checkDuplicateImage [sentinelA] "__EMPTY_IMAGE__A" = true ∧
      ¬ ∃ r ∈ [sentinelA], r.isEmptyCategory = false ∧ r.name = "__EMPTY_IMAGE__A" := by
  constructor
  · rfl
  · decide

/-- Claim C2 (amended): `checkDuplicateImage` consults every record of the
snapshot, sentinels included: it returns `true` iff some record — regardless
of `isEmptyCategory` — has exactly the file name. -/
theorem checkDuplicateImage_spec (imgs : List ImageRecord) (fileName : String) :
    checkDuplicateImage imgs fileName = true ↔ ∃ r ∈ imgs, r.name = fileName := by
  simp [checkDuplicateImage]

/-- Claim C7: the mode-filter toggle is the cyclic successor on the closed
enumeration `{DSC, TGA, ALL}`, and three consecutive toggles return every
member of the enumeration to itself. -/
theorem toggleModeFilter_cycle :
    toggleModeFilter "DSC" = "TGA" ∧ toggleModeFilter "TGA" = "ALL" ∧
      toggleModeFilter "ALL" = "DSC" ∧
      ∀ m : String, m = "DSC" ∨ m = "TGA" ∨ m = "ALL" →
        toggleModeFilter (toggleModeFilter (toggleModeFilter m)) = m := by
  refine ⟨rfl, rfl, rfl, ?_⟩
  rintro m (rfl | rfl | rfl) <;> rfl

/-- Witness for claim C7: three toggles from `"DSC"` return to `"DSC"`. -/
theorem toggleModeFilter_cycle_witness :
    toggleModeFilter (toggleModeFilter (toggleModeFilter "DSC")) = "DSC" :=
  toggleModeFilter_cycle.2.2.2 "DSC" (Or.inl rfl)

/-- Claim C8: after `selectAllVisible` the visible ids intersected with the
selection are exactly the visible ids, every previously selected id (in
particular one outside the visible set) remains selected, and a second
`selectAllVisible` leaves the selection unchanged. -/
theorem selectAllVisible_spec (imgs : List ImageRecord) (filt : String)
    (tagFilters : List String) (mode : String) (sel : Finset Nat) :
    visibleIds imgs filt tagFilters mode ∩ selectAllVisible imgs filt tagFilters mode sel
        = visibleIds imgs filt tagFilters mode ∧
      sel ⊆ selectAllVisible imgs filt tagFilters mode sel ∧
      selectAllVisible imgs filt tagFilters mode
          (selectAllVisible imgs filt tagFilters mode sel)
        = selectAllVisible imgs filt tagFilters mode sel := by
  unfold selectAllVisible
  refine ⟨?_, Finset.subset_union_left, ?_⟩
  · rw [Finset.inter_eq_left]
    exact Finset.subset_union_right
  · rw [Finset.union_assoc, Finset.union_self]

/-- Claim C9: `clearSelection` empties the entire selection set: no id at all
remains, including an id hidden by the active filters (one not among the
visible ids). -/
theorem clearSelection_empties_all (imgs : List ImageRecord) (filt : String)
    (tagFilters : List String) (mode : String) (sel : Finset Nat) (i : Nat) :
    i ∉ clearSelection sel ∧
      (i ∈ sel → i ∉ visibleIds imgs filt tagFilters mode → i ∉ clearSelection sel) := by
  simp [clearSelection]

/-- Witness for claim C9: the selected id 3 is hidden by the filters of an
empty snapshot and is gone after `clearSelection`. -/
theorem clearSelection_empties_all_witness :
    3 ∈ ({3} : Finset Nat) ∧ (3 : Nat) ∉ clearSelection {3} :=
  ⟨by decide, (clearSelection_empties_all [] "all" [] "ALL" {3} 3).2 (by decide) (by decide)⟩

/-- Claim C10: with the category filter at `"all"` and a non-empty tag-filter
set, `toggleSelectAll` never applies the tag filter: its visible set equals
the shared pipeline's visible set computed with no tag filters, and hence a
non-sentinel, mode-matching record failing the tag filter is in
`toggleSelectAll`'s visible set (and its id among the ids the function
selects or deselects) while `renderGallery` / `selectAllVisible` exclude
it. -/
theorem toggleSelectAll_ignores_tags (imgs : List ImageRecord)
    (tagFilters : List String) (mode : String) (hne : tagFilters ≠ []) :
    toggleVisibleRecords imgs "all" tagFilters mode = visibleRecords imgs "all" [] mode ∧
      ∀ r ∈ imgs, r.isEmptyCategory = false →
        (modeActive mode = true → hasSuffix r.name mode = true) →
        tagMatch tagFilters r = false →
          r ∈ toggleVisibleRecords imgs "all" tagFilters mode ∧
            r ∉ visibleRecords imgs "all" tagFilters mode ∧
            ∀ n, r.id = some n →
              n ∈ (toggleVisibleRecords imgs "all" tagFilters mode).filterMap
                (fun s => s.id) := by
  have hempty : tagFilters.isEmpty = false := by
    cases tagFilters with
    | nil => exact absurd rfl hne
    | cons a as => rfl
  constructor
  · simp [toggleVisibleRecords, visibleRecords, toggleCategoryTagStage,
      applyCategoryFilter, applyTagFilter]
  · intro r hr hsent hmode htag
    have hmem0 : r ∈ filterSentinels imgs := by
      rw [filterSentinels, List.mem_filter]
      exact ⟨hr, by simp [hsent]⟩
    have hmemT : r ∈ toggleVisibleRecords imgs "all" tagFilters mode := by
      unfold toggleVisibleRecords toggleCategoryTagStage
      simp only [bne_self_eq_false, Bool.false_eq_true, if_false]
      exact mem_applyModeFilter_of hmem0 hmode
    refine ⟨hmemT, ?_, ?_⟩
    · intro hcon
      unfold visibleRecords at hcon
      have h3 := mem_of_applyModeFilter hcon
      rw [applyTagFilter, hempty] at h3
      simp only [Bool.not_false, if_true] at h3
      have h4 := (List.mem_filter.mp h3).2
      rw [htag] at h4
      exact Bool.false_ne_true h4
    · intro n hn
      exact List.mem_filterMap.mpr ⟨r, hmemT, hn⟩

/-- Witness for claim C10: a record with an empty tag list is in
`toggleSelectAll`'s visible set but not in the shared pipeline's, when the
category filter is `"all"` and the tag filter set is `{"PBT"}`. -/
theorem toggleSelectAll_ignores_tags_witness :
    rNull ∈ toggleVisibleRecords [rNull] "all" ["PBT"] "ALL" ∧
      rNull ∉ visibleRecords [rNull] "all" ["PBT"] "ALL" :=
  ⟨((toggleSelectAll_ignores_tags [rNull] ["PBT"] "ALL" (by decide)).2 rNull (by decide)
      (by decide) (by decide) (by decide)).1,
    ((toggleSelectAll_ignores_tags [rNull] ["PBT"] "ALL" (by decide)).2 rNull (by decide)
      (by decide) (by decide) (by decide)).2.1⟩

theorem splitChar_of_not_mem {sep : Char} {l : List Char}
    (h : ∀ c ∈ l, c ≠ sep) : splitChar sep l = [l] := by
  induction l with
  | nil => rfl
  | cons c cs ih =>
    have hc : (c == sep) = false := by
      simp [h c (List.mem_cons_self c cs)]
    have ih2 := ih (fun d hd => h d (List.mem_cons_of_mem c hd))
    simp [splitChar, hc, ih2]

theorem jsOrStr_of_ne {a b : String} (h : a ≠ "") : jsOrStr a b = a := by
  simp [jsOrStr, h]

theorem jsOrStr_empty_left (b : String) : jsOrStr "" b = b := by
  simp [jsOrStr]

/-- Claim C3 counterexample: importing the archive entry at path
`"photo.png"` (no `/` separator) into an empty repository creates a record
whose category is `"all"` — the default `handleZipFile` passes to
`saveImage` — and not the empty category the claim states; likewise the
entry `"/photo.png"` (separator present, empty first segment) gets category
`"all"`, not its first path segment `""`. -/
theorem zipImport_no_separator_counterexample :
    (zipImportEntry [] false "photo.png" "dataUri" "now").map (fun r => r.category)
        = some (.jstr "all") ∧
      (JVal.jstr "all" ≠ .jstr "") ∧ ¬ '/' ∈ "photo.png".data ∧
      (zipImportEntry [] false "/photo.png" "dataUri" "now").map (fun r => r.category)
        = some (.jstr "all") ∧
      (zipEntrySplit "/photo.png").1 = "" := by
  refine ⟨by decide, by decide, by decide, by decide, by decide⟩

/-- Claim C3 (amended): an imported archive entry whose path contains no `/`
creates a record with category `"all"` (not empty), because `handleZipFile`
passes `category || 'all'` to `saveImage`; an entry with a separator whose
first path segment is non-empty gets that first segment as its category. -/
theorem zipImport_category_spec (imgs : List ImageRecord) (ov : Bool)
    (path dataUrl now : String) (r : ImageRecord)
    (h : zipImportEntry imgs ov path dataUrl now = some r) :
    ((¬ '/' ∈ path.data) → r.category = .jstr "all") ∧
      ('/' ∈ path.data → (zipEntrySplit path).1 ≠ "" →
        r.category = .jstr (zipEntrySplit path).1) := by
  unfold zipImportEntry at h
  split at h
  · split at h
    · exact absurd h (by simp)
    · have hr : r = saveImageRecord (zipEntrySplit path).2 dataUrl now
          (jsOrStr (zipEntrySplit path).1 "all") := by
        exact (Option.some.injEq _ _ ▸ h).symm
      subst hr
      constructor
      · intro hnosep
        have hsplit : zipEntrySplit path = ("", path) := by
          have h1 : splitChar '/' path.data = [path.data] :=
            splitChar_of_not_mem (fun c hc hceq => hnosep (hceq ▸ hc))
          simp [zipEntrySplit, h1]
        rw [saveImageRecord, hsplit]
        simp [jsOrStr]
      · intro _ hne
        rw [saveImageRecord]
        simp [jsOrStr_of_ne hne, jsOrStr_of_ne]
  · exact absurd h (by simp)

/-- The record `zipImportEntry` produces for the sample entry `"a/b.png"`. -/
def importedSampleRecord : ImageRecord := saveImageRecord "b.png" "dataUri" "now" "a"

/-- Witness for claim C3 (amended) at the concrete entry `"a/b.png"`. -/
theorem zipImport_category_spec_witness :
    importedSampleRecord.category = .jstr (zipEntrySplit "a/b.png").1 :=
  (zipImport_category_spec [] false "a/b.png" "dataUri" "now" importedSampleRecord
      (by decide)).2 (by decide) (by decide)

theorem deleteCategory_real_count (name : String) (imgs : List ImageRecord) :
    ((deleteCategory name imgs).filter (fun r => !r.isEmptyCategory)).length
      = (imgs.filter (fun r => !r.isEmptyCategory)).length := by
  induction imgs with
  | nil => rfl
  | cons a as ih =>
    by_cases hc : a.category = .jstr name
    · by_cases hs : a.isEmptyCategory = true
      · simp [deleteCategory, List.filterMap_cons, hc, hs] at ih ⊢
        exact ih
      · simp [deleteCategory, List.filterMap_cons, hc, hs, List.filter_cons] at ih ⊢
        exact ih
    · by_cases hs : a.isEmptyCategory = true
      · simp [deleteCategory, List.filterMap_cons, hc, hs, List.filter_cons] at ih ⊢
        exact ih
      · simp [deleteCategory, List.filterMap_cons, hc, hs, List.filter_cons] at ih ⊢
        exact ih

/-- Claim C5: deleting category `A` rewrites to `null` the category of every
non-sentinel record that was in `A` (conjunct 1), keeps every record of other
categories unchanged (conjunct 2), leaves no record — in particular no
sentinel — of category `A` (conjunct 3), keeps only sentinels that were
already in the snapshot (conjunct 4), and deletes no non-sentinel record
(conjunct 5: their count is preserved). -/
theorem deleteCategory_spec (name : String) (imgs : List ImageRecord) :
    (∀ r ∈ imgs, r.isEmptyCategory = false → r.category = .jstr name →
        { r with category := .jnull } ∈ deleteCategory name imgs) ∧
      (∀ r ∈ imgs, r.category ≠ .jstr name → r ∈ deleteCategory name imgs) ∧
      (∀ r ∈ deleteCategory name imgs, r.category ≠ .jstr name) ∧
      (∀ r ∈ deleteCategory name imgs, r.isEmptyCategory = true → r ∈ imgs) ∧
      ((deleteCategory name imgs).filter (fun r => !r.isEmptyCategory)).length
        = (imgs.filter (fun r => !r.isEmptyCategory)).length := by
  refine ⟨?_, ?_, ?_, ?_, deleteCategory_real_count name imgs⟩
  · intro r hr hs hc
    refine List.mem_filterMap.mpr ⟨r, hr, ?_⟩
    simp [hc, hs]
  · intro r hr hne
    refine List.mem_filterMap.mpr ⟨r, hr, ?_⟩
    simp [hne]
  · intro r hr
    obtain ⟨a, _, hfa⟩ := List.mem_filterMap.mp hr
    by_cases hac : a.category = .jstr name
    · by_cases has : a.isEmptyCategory = true
      · simp [hac, has] at hfa
      · simp [hac, has] at hfa
        rw [← hfa]
        simp
    · simp [hac] at hfa
      rw [← hfa]
      exact hac
  · intro r hr hsent
    obtain ⟨a, ha, hfa⟩ := List.mem_filterMap.mp hr
    by_cases hac : a.category = .jstr name
    · by_cases has : a.isEmptyCategory = true
      · simp [hac, has] at hfa
      · simp [hac, has] at hfa
        rw [← hfa] at hsent
        simp at hsent
    · simp [hac] at hfa
      rw [← hfa]
      exact ha

/-- Witness for claim C5: deleting `"A"` from a snapshot with the sentinel of
`"A"` and a real record in `"A"` leaves the real record with `null`
category. -/
theorem deleteCategory_spec_witness :
    { rCatA with category := JVal.jnull } ∈ deleteCategory "A" [sentinelA, rCatA] :=
  (deleteCategory_spec "A" [sentinelA, rCatA]).1 rCatA (by decide) (by decide) (by decide)

/-- Claim C6 (rejection behaviour confirmed, sentinel-name rewrite refuted):
renaming to a reserved name or to an existing category leaves the snapshot
unchanged (conjuncts 1 and 2), but on the cascade path the sentinel's `name`
is NOT reconstructed: renaming `"A"` to `"B"` rewrites the sentinel's
`category` while its `name` keeps the old `"__EMPTY_IMAGE__A"` (conjuncts
3-5), because the `else if` branch of the cursor scan that would rewrite the
name (src/script.js lines 5866-5871) is unreachable. -/
theorem renameCategory_reject_and_sentinel_name (oldName newName : String)
    (imgs : List ImageRecord) :
    (newName = "全部" ∨ newName = "其他" → renameCategory oldName newName imgs = imgs) ∧
      (JVal.jstr newName ∈ existingCategories imgs →
        renameCategory oldName newName imgs = imgs) ∧
      renameCategory "A" "B" [sentinelA] = [{ sentinelA with category := .jstr "B" }] ∧
      ({ sentinelA with category := .jstr "B" } : ImageRecord).name = emptyMarker ++ "A" ∧
      emptyMarker ++ "A" ≠ emptyMarker ++ "B" := by
  refine ⟨?_, ?_, by decide, by decide, by decide⟩
  · rintro (rfl | rfl) <;> simp [renameCategory]
  · intro h
    unfold renameCategory
    split
    · rfl
    · split
      · rfl
      · next h2 =>
        exact absurd (by simpa using h) h2

/-- Witness for claim C6's hypotheses: renaming to the reserved `"全部"`
leaves the snapshot unchanged, and renaming to the existing category `"Lab"`
leaves the snapshot unchanged. -/
theorem renameCategory_reject_witness :
    renameCategory "A" "全部" [sentinelA] = [sentinelA] ∧
      renameCategory "A" "Lab" [rLab, sentinelA] = [rLab, sentinelA] :=
  ⟨(renameCategory_reject_and_sentinel_name "A" "全部" [sentinelA]).1 (Or.inl rfl),
    (renameCategory_reject_and_sentinel_name "A" "Lab" [rLab, sentinelA]).2.1 (by decide)⟩

theorem chListLe_total : ∀ as bs : List Char, chListLe as bs = true ∨ chListLe bs as = true := by
  intro as
  induction as with
  | nil => intro bs; left; rfl
  | cons a as2 ih =>
    intro bs
    cases bs with
    | nil => right; rfl
    | cons b bs2 =>
      by_cases hab : a = b
      · subst hab
        rcases ih bs2 with h | h
        · left; simpa [chListLe] using h
        · right; simpa [chListLe] using h
      · rcases lt_trichotomy a b with hlt | heq | hgt
        · left; simp [chListLe, hab, hlt]
        · exact absurd heq hab
        · right; simp [chListLe, Ne.symm hab, hgt]

theorem chListLe_trans : ∀ as bs cs : List Char,
    chListLe as bs = true → chListLe bs cs = true → chListLe as cs = true := by
  intro as
  induction as with
  | nil => intro bs cs _ _; rfl
  | cons a as2 ih =>
    intro bs cs h1 h2
    cases bs with
    | nil => simp [chListLe] at h1
    | cons b bs2 =>
      cases cs with
      | nil => simp [chListLe] at h2
      | cons c cs2 =>
        by_cases hab : a = b
        · subst hab
          by_cases hac : a = c
          · subst hac
            simp only [chListLe, if_pos rfl] at h1 h2 ⊢
            exact ih bs2 cs2 h1 h2
          · simp [chListLe, hac] at h2 ⊢
            exact h2
        · simp [chListLe, hab] at h1
          by_cases hbc : b = c
          · subst hbc
            simp [chListLe, hab]
            exact h1
          · simp [chListLe, hbc] at h2
            have hac : a < c := lt_trans h1 h2
            simp [chListLe, ne_of_lt hac, hac]

instance : IsTrans JVal jvalLeR :=
  ⟨fun _ _ _ h1 h2 => chListLe_trans _ _ _ h1 h2⟩

instance : IsTotal JVal jvalLeR :=
  ⟨fun _ _ => chListLe_total _ _⟩

theorem mem_setDedupAux : ∀ (l seen : List JVal) (c : JVal),
    c ∈ setDedupAux seen l ↔ c ∈ l ∧ c ∉ seen := by
  intro l
  induction l with
  | nil => intro seen c; simp [setDedupAux]
  | cons a as ih =>
    intro seen c
    by_cases h : seen.contains a = true
    · have ha : a ∈ seen := by simpa using h
      rw [setDedupAux, if_pos h, ih]
      constructor
      · rintro ⟨h1, h2⟩
        exact ⟨List.mem_cons_of_mem a h1, h2⟩
      · rintro ⟨h1, h2⟩
        rcases List.mem_cons.mp h1 with rfl | h3
        · exact absurd ha h2
        · exact ⟨h3, h2⟩
    · have ha : a ∉ seen := by simpa using h
      rw [setDedupAux, if_neg h]
      rw [List.mem_cons, ih]
      constructor
      · rintro (rfl | ⟨h1, h2⟩)
        · exact ⟨List.mem_cons_self _ _, ha⟩
        · rw [List.mem_cons] at h2
          push_neg at h2
          exact ⟨List.mem_cons_of_mem a h1, h2.2⟩
      · rintro ⟨h1, h2⟩
        rcases List.mem_cons.mp h1 with rfl | h3
        · exact Or.inl rfl
        · by_cases hca : c = a
          · exact Or.inl hca
          · refine Or.inr ⟨h3, ?_⟩
            rw [List.mem_cons]
            push_neg
            exact ⟨hca, h2⟩

theorem nodup_setDedupAux : ∀ (l seen : List JVal), (setDedupAux seen l).Nodup := by
  intro l
  induction l with
  | nil => intro seen; simp [setDedupAux]
  | cons a as ih =>
    intro seen
    by_cases h : seen.contains a = true
    · rw [setDedupAux, if_pos h]
      exact ih seen
    · rw [setDedupAux, if_neg h]
      rw [List.nodup_cons]
      refine ⟨?_, ih (a :: seen)⟩
      intro hmem
      exact ((mem_setDedupAux as (a :: seen) a).mp hmem).2 (List.mem_cons_self a seen)

theorem mem_filteredCategories (imgs : List ImageRecord) (c : JVal) :
    c ∈ filteredCategories imgs ↔
      (c ∈ rawCategories imgs ∧
        c ≠ .undef ∧ c ≠ .jstr "" ∧ c ≠ .jstr "all" ∧ c ≠ .jstr "全部") := by
  unfold filteredCategories setDedup
  rw [List.mem_filter, mem_setDedupAux]
  simp [bne_iff_ne, and_assoc]

theorem mem_categoriesWithOther (imgs : List ImageRecord) (c : JVal) :
    c ∈ categoriesWithOther imgs ↔ (c = .jstr "其他" ∨ c ∈ filteredCategories imgs) := by
  unfold categoriesWithOther
  split
  · next h =>
    have hmem : JVal.jstr "其他" ∈ filteredCategories imgs := by simpa using h
    constructor
    · exact fun h2 => Or.inr h2
    · rintro (rfl | h2)
      · exact hmem
      · exact h2
  · rw [List.mem_append, List.mem_singleton]
    exact or_comm

theorem nodup_categoriesWithOther (imgs : List ImageRecord) :
    (categoriesWithOther imgs).Nodup := by
  have hf : (filteredCategories imgs).Nodup :=
    List.Nodup.filter _ (nodup_setDedupAux (rawCategories imgs) [])
  unfold categoriesWithOther
  split
  · exact hf
  · next h =>
    rw [List.nodup_append]
    refine ⟨hf, List.nodup_singleton _, ?_⟩
    intro c hc1 hc2
    rw [List.mem_singleton] at hc2
    subst hc2
    exact h (by simpa using hc1)

/-- Claim C4 counterexample: with one real record in category `"阿"` — a
string that sorts after `"其他"` — `renderCategories` yields
`["其他", "阿"]`: the list ends in `"阿"`, so `"其他"` is NOT the last
element, refuting the pinned-last part of the claim (the code calls
`.sort()` after pushing `"其他"`). -/
theorem listCategories_counterexample :
    listCategories [rAh] = [.jstr "其他", .jstr "阿"] ∧
      (listCategories [rAh]).getLast? = some (.jstr "阿") ∧
      JVal.jstr "阿" ≠ .jstr "其他" := by
  refine ⟨by decide, by decide, by decide⟩

/-- Claim C4 (amended): `listCategories` returns the deduplicated union of
the categories of marker-named sentinel records and of real records, minus
`undefined` / `""` / `"all"` / `"全部"`, with a synthetic `"其他"` entry
added when absent, and the whole list sorted lexicographically by the JS
default string order — `"其他"` is not pinned last; it is sorted like any
other entry.  Stated as: the result is sorted under `jvalLeR`, contains
`"其他"`, has no duplicates, and its members are exactly `"其他"` plus the
union minus the reserved values. -/
theorem listCategories_spec (imgs : List ImageRecord) :
    (listCategories imgs).Sorted jvalLeR ∧
      JVal.jstr "其他" ∈ listCategories imgs ∧
      (listCategories imgs).Nodup ∧
      ∀ c : JVal,
        c ∈ listCategories imgs ↔
          (c = .jstr "其他" ∨
            (c ∈ rawCategories imgs ∧
              c ≠ .undef ∧ c ≠ .jstr "" ∧ c ≠ .jstr "all" ∧ c ≠ .jstr "全部")) := by
  have hperm := List.perm_insertionSort jvalLeR (categoriesWithOther imgs)
  refine ⟨List.sorted_insertionSort jvalLeR (categoriesWithOther imgs), ?_, ?_, ?_⟩
  · rw [listCategories, hperm.mem_iff, mem_categoriesWithOther]
    exact Or.inl rfl
  · rw [listCategories, hperm.nodup_iff]
    exact nodup_categoriesWithOther imgs
  · intro c
    rw [listCategories, hperm.mem_iff, mem_categoriesWithOther, mem_filteredCategories]

end Gallery
